import Mathlib

/-!
# recjack: a shallow embedding of the real-time looper

The definitions below follow `src/recjack/recjack.c` and
`src/recjack/metronome.c`.

Conventions of the embedding.

* `jack_nframes_t`, `unsigned int` are 32-bit unsigned integers; `size_t` and
  `unsigned long` are 64-bit unsigned integers (LP64).  They are natural
  numbers here, and every C operation that can wrap is written with an
  explicit reduction modulo `2^32` or `2^64`.
* Memory reached through a pointer is a function from an index (counted from
  the pointer) to the stored value.  `memcpy` and `memset` write ranges of
  such a memory.  The capture buffer (`char *`) and the input and output port
  buffers are indexed by byte; the click and the metronome port buffer, which
  the source only ever touches with frame counts, are indexed by sample.
  The memory is flat: an access outside the block a pointer was given for,
  which in C is undefined and may end the program, is here an access to the
  index computed, so a model result past such an access says where the
  source reads or writes and not what a run would deliver.
* `sizeof(jack_default_audio_sample_t)` comes from the JACK headers, which
  are not part of the repository; it is the parameter `sw` (JACK defines the
  sample type as a 4-byte `float`).
* The two `pthread_mutex_trylock` calls of `process` are inputs of a cycle:
  `click_free` and `buffer_free` say whether the lock was obtained.
* The `while` loop of the metronome fill takes a fuel argument; `none` means
  that the loop did not finish within the fuel.
-/

namespace Recjack

/-- An audio sample.  The code never computes with samples, it only copies
them and writes the zero sample. -/
abbrev Sample := Int

/-- Modulus of 32-bit unsigned arithmetic (`jack_nframes_t`, `unsigned int`). -/
def U32 : Nat := 4294967296

/-- Modulus of 64-bit unsigned arithmetic (`size_t`, `unsigned long`). -/
def U64 : Nat := 18446744073709551616

/-- Addition of two `jack_nframes_t` values. -/
def add32 (a b : Nat) : Nat := (a + b) % U32

/-- Subtraction of two `jack_nframes_t` values. -/
def sub32 (a b : Nat) : Nat := (a % U32 + U32 - b % U32) % U32

/-- Addition of two `size_t` values. -/
def add64 (a b : Nat) : Nat := (a + b) % U64

/-- Subtraction of two `size_t` values. -/
def sub64 (a b : Nat) : Nat := (a % U64 + U64 - b % U64) % U64

/-- Multiplication of two `size_t` values. -/
def mul64 (a b : Nat) : Nat := (a * b) % U64

def MODE_RECORD : Nat := 1
def MODE_LISTEN : Nat := 2
def MODE_PAUSED : Nat := 3
def MODE_REWAIT : Nat := 4
def MODE_LIWAIT : Nat := 5

/-- The call `memcpy(dst + d, src + s, n)`, in units of the element type. -/
def memcpy {α : Type} (dst : Nat → α) (d : Nat) (src : Nat → α) (s n : Nat) : Nat → α :=
  fun i => if d ≤ i ∧ i < d + n then src (s + (i - d)) else dst i

/-- The call `memset(dst + d, 0, n)`, in units of the element type. -/
def memset0 {α : Type} [Zero α] (dst : Nat → α) (d n : Nat) : Nat → α :=
  fun i => if d ≤ i ∧ i < d + n then 0 else dst i

/-- The record `struct click` of metronome.h. -/
structure Click where
  buf : Nat → Sample
  size : Nat

/-- The record `struct buffer` of recjack.h; `buf` is byte-addressed. -/
structure Buffer where
  buf : Nat → Nat
  size : Nat
  offset : Nat
  frames_off : Nat
  srate : Nat

/-- The JACK record `jack_latency_range_t`. -/
structure LatencyRange where
  min : Nat
  max : Nat

/-- The file-scope variables of recjack.c that `process` and `change_mode`
use, together with the buffer `b` that `main` hands to both. -/
structure State where
  click : Option Click
  click_offset : Nat
  input_latency_range : LatencyRange
  mode : Nat
  b : Buffer

/-! ## metronome.c -/

/-- The local `beep_frames` of `generate_click`, once `click->size` is known. -/
def beep_frames (bpm srate beep_ratio size : Nat) : Nat :=
  if bpm < 60 then (srate / beep_ratio) % U32 else size / beep_ratio

/-- The first `for` loop of `generate_click`: the tone. -/
def fill_tone (tone : Nat → Sample) (beep : Nat) (buf : Nat → Sample) : Nat → Sample :=
  (List.range beep).foldl (fun m k => Function.update m k (tone k)) buf

/-- The second `for` loop of `generate_click`: the silence. -/
def fill_silence (beep size : Nat) (buf : Nat → Sample) : Nat → Sample :=
  (List.range' beep (size - beep)).foldl (fun m k => Function.update m k 0) buf

/-- The function `generate_click`.  `tone k` stands for the floating-point
value `(float) (amplitude * sin(k * omega))`, and `fresh` for the content of
the block `malloc` returns.  A division by zero yields no click.  When
`beep_frames` exceeds `size` (a size that wrapped) the tone loop of the
source writes past the allocated block; the flat memory takes those writes. -/
def generate_click (tone fresh : Nat → Sample) (bpm srate beep_ratio : Nat) : Option Click :=
  if bpm = 0 then none
  else
    let size := ((60 * srate) % U64 / bpm) % U32
    if beep_ratio = 0 then none
    else
      let beep := beep_frames bpm srate beep_ratio size
      some { buf := fill_silence beep size (fill_tone tone beep fresh), size := size }

/-! ## recjack.c -/

/-- The function `change_mode`. -/
def change_mode (s : State) (m : Nat) : State :=
  if m ≠ 0 then { s with mode := m }
  else if s.mode = MODE_RECORD then
    { s with mode := MODE_LIWAIT, b := { s.b with offset := 0 } }
  else if s.mode = MODE_LISTEN then
    { s with
      mode := MODE_PAUSED
      b := { s.b with
             offset := add32 s.input_latency_range.min s.input_latency_range.max / 2 } }
  else if s.mode = MODE_PAUSED then
    { s with
      mode := MODE_REWAIT
      b := { s.b with buf := fun _ => 0, size := 0, offset := 0 } }
  else s

/-- The function `metronome_synchronize`; the state carries `click_offset`
and `mode`, and `delay` is the value `*delay` holds before the call.  The
result is the state and the value of `*delay` afterwards. -/
def metronome_synchronize (offset : Nat) (s : State) (delay : Nat) : State × Nat :=
  if s.click_offset = 0 ∧ (s.mode = MODE_REWAIT ∨ s.mode = MODE_LIWAIT) then
    ({ s with
       mode := if s.mode = MODE_REWAIT then MODE_RECORD
               else if s.mode = MODE_LIWAIT then MODE_LISTEN else s.mode },
     offset)
  else (s, delay)

/-- The variables of the metronome part of `process`. -/
structure Fill where
  s : State
  record_offset : Nat
  remaining : Nat
  written : Nat
  buf : Nat → Sample

/-- The `while` loop of `process` that copies whole click tails. -/
def click_fill (c : Click) : Nat → Fill → Option Fill
  | 0, _ => none
  | fuel + 1, f =>
    if sub32 c.size f.s.click_offset < f.remaining then
      let sd := metronome_synchronize f.written f.s f.record_offset
      let n := sub32 c.size sd.1.click_offset
      click_fill c fuel
        { s := { sd.1 with click_offset := 0 }
          record_offset := sd.2
          remaining := sub32 f.remaining n
          written := add32 f.written n
          buf := memcpy f.buf f.written c.buf sd.1.click_offset n }
    else some f

/-- The `if (remaining > 0)` block that follows the loop. -/
def click_complete (c : Click) (f : Fill) : Fill :=
  if f.remaining > 0 then
    let sd := metronome_synchronize f.written f.s f.record_offset
    { f with
      s := { sd.1 with click_offset := add32 sd.1.click_offset f.remaining }
      record_offset := sd.2
      buf := memcpy f.buf f.written c.buf sd.1.click_offset f.remaining }
  else f

/-- What one call of `process` receives from JACK and from the locks. -/
structure Cycle where
  nframes : Nat
  click_free : Bool
  buffer_free : Bool
  range : LatencyRange
  input : Nat → Nat
  output : Nat → Nat
  metronome : Nat → Sample

/-- The state after the metronome part of `process`, the local
`record_offset`, and the content of the metronome port buffer. -/
structure Metro where
  s : State
  record_offset : Nat
  metronome : Nat → Sample

/-- The metronome part of `process` (up to `// end metronome`). -/
def process_metronome (fuel : Nat) (cy : Cycle) (s : State) : Option Metro :=
  if cy.click_free = false then
    some { s := { s with click_offset := add32 s.click_offset cy.nframes }
           record_offset := 0
           metronome := cy.metronome }
  else
    match s.click with
    | none =>
      let m1 := if s.mode = MODE_REWAIT then MODE_RECORD else s.mode
      let m2 := if m1 = MODE_LIWAIT then MODE_LISTEN else m1
      some { s := { s with mode := m2 }
             record_offset := 0
             metronome := memset0 cy.metronome 0 cy.nframes }
    | some c =>
      match click_fill c fuel
          { s := s, record_offset := 0, remaining := cy.nframes, written := 0,
            buf := cy.metronome } with
      | none => none
      | some f =>
        let g := click_complete c f
        some { s := g.s, record_offset := g.record_offset, metronome := g.buf }

/-- The state and the content of the output port buffer after `process`. -/
structure Outcome where
  s : State
  record_offset : Nat
  output : Nat → Nat
  metronome : Nat → Sample

/-- The recording/playing part of `process`.  `sw` is
`sizeof(jack_default_audio_sample_t)`.  The pointer `s` of the source has
the sample type, so `s + k` is the byte address `sw * k`. -/
def process_buffer (sw : Nat) (cy : Cycle) (m : Metro) : Outcome :=
  if cy.buffer_free = false then
    { s := m.s, record_offset := m.record_offset, output := cy.output, metronome := m.metronome }
  else
    let b := m.s.b
    let record_size := sub32 cy.nframes m.record_offset
    let size := mul64 sw record_size
    let offset := mul64 sw m.record_offset
    if m.s.mode = MODE_RECORD then
      let lat :=
        if cy.range.min ≠ m.s.input_latency_range.min ∨ cy.range.max ≠ m.s.input_latency_range.max
        then { min := cy.range.min, max := cy.range.max }
        else m.s.input_latency_range
      let b1 := { b with size := add64 b.size size }
      let b2 := { b1 with buf := memcpy b1.buf b1.offset cy.input (sw * offset) size }
      let b3 := { b2 with offset := add64 b2.offset size }
      { s := { m.s with input_latency_range := lat, b := b3 }
        record_offset := m.record_offset, output := cy.output, metronome := m.metronome }
    else if m.s.mode = MODE_LISTEN then
      let o1 := memset0 cy.output 0 offset
      if size > sub64 b.size b.offset then
        let o2 := memcpy o1 (sw * offset) b.buf b.offset (sub64 b.size b.offset)
        let o3 := memset0 o2 (sw * (offset + sub64 b.size b.offset))
                    (sub64 size (sub64 b.size b.offset))
        { s := change_mode m.s 0
          record_offset := m.record_offset, output := o3, metronome := m.metronome }
      else
        let o2 := memcpy o1 (sw * offset) b.buf b.offset size
        { s := { m.s with b := { b with offset := add64 b.offset size } }
          record_offset := m.record_offset, output := o2, metronome := m.metronome }
    else
      { s := m.s, record_offset := m.record_offset
        output := memset0 cy.output 0 (cy.nframes * sw), metronome := m.metronome }

/-- The function `process`: the metronome part, then the recording/playing
part. -/
def process (sw fuel : Nat) (cy : Cycle) (s : State) : Option Outcome :=
  (process_metronome fuel cy s).map (process_buffer sw cy)

/-- Consecutive calls of `process`, one per cycle, threading the state. -/
def run (sw fuel : Nat) : List Cycle → State → Option State
  | [], s => some s
  | cy :: rest, s =>
    match process sw fuel cy s with
    | none => none
    | some r => run sw fuel rest r.s

/-- The body of the `while` loop of `process`, one turn of `click_fill`. -/
def click_turn (c : Click) (f : Fill) : Fill :=
  let sd := metronome_synchronize f.written f.s f.record_offset
  let n := sub32 c.size sd.1.click_offset
  { s := { sd.1 with click_offset := 0 }
    record_offset := sd.2
    remaining := sub32 f.remaining n
    written := add32 f.written n
    buf := memcpy f.buf f.written c.buf sd.1.click_offset n }

/-- The locals of the metronome part of `process` when the loop starts. -/
def fill_init (cy : Cycle) (s : State) : Fill :=
  { s := s, record_offset := 0, remaining := cy.nframes, written := 0, buf := cy.metronome }

/-- The state `main` builds before its command loop: an empty buffer
(`buf = NULL`, `offset = 0`, `size = 0`, `frames_off = 0`), the sample rate
JACK reports, the click `main` installs (none when no tempo is given), the
capture latency range `init_finish` reads, and the mode Paused. -/
def init_state (srate : Nat) (click : Option Click) (lat : LatencyRange) : State :=
  { click := click, click_offset := 0, input_latency_range := lat, mode := MODE_PAUSED,
    b := { buf := fun _ => 0, size := 0, offset := 0, frames_off := 0, srate := srate } }

/-- The capture buffer cursor is inside the buffer: `b.offset <= b.size`. -/
def cursor_in_buffer (s : State) : Prop := s.b.offset ≤ s.b.size

instance (s : State) : Decidable (cursor_in_buffer s) :=
  inferInstanceAs (Decidable (s.b.offset ≤ s.b.size))

/-! ## Concrete inputs -/

/-- A capture buffer of 1000 bytes with the cursor at byte 900. -/
def buf_1000_900 : Buffer :=
  { buf := fun i => i % 256, size := 1000, offset := 900, frames_off := 0, srate := 48000 }

/-- Playing, no click installed, capture latency 256 to 256 frames. -/
def st_playing : State :=
  { click := none, click_offset := 0, input_latency_range := ⟨256, 256⟩, mode := MODE_LISTEN,
    b := buf_1000_900 }

/-- A cycle of 64 frames (256 bytes of 4-byte samples), both locks obtained;
the output port buffer holds the byte 7 everywhere before the call. -/
def cy_64 : Cycle :=
  { nframes := 64, click_free := true, buffer_free := true, range := ⟨256, 256⟩,
    input := fun i => i % 251, output := fun _ => 7, metronome := fun _ => 9 }

/-- A click of 48000 frames (tempo 60 at 48000 Hz); its samples play no part. -/
def click_48000 : Click := { buf := fun _ => 0, size := 48000 }

/-- A cleared capture buffer. -/
def buf_empty : Buffer :=
  { buf := fun _ => 0, size := 0, offset := 0, frames_off := 0, srate := 48000 }

/-- RecordArmed, with the click cursor 200 frames before the end of the click. -/
def st_armed_47800 : State :=
  { click := some click_48000, click_offset := 47800, input_latency_range := ⟨0, 0⟩,
    mode := MODE_REWAIT, b := buf_empty }

/-- A cycle of 512 frames with both locks obtained. -/
def cy_512 : Cycle :=
  { nframes := 512, click_free := true, buffer_free := true, range := ⟨0, 0⟩,
    input := fun i => i % 251, output := fun _ => 7, metronome := fun _ => 9 }

/-- A click of 8 frames; its samples play no part. -/
def click_8 : Click := { buf := fun i => i, size := 8 }

/-- RecordArmed with a cleared capture buffer; the click cursor is one frame
before the end of the click. -/
def st_rec_armed_7 : State :=
  { click := some click_8, click_offset := 7, input_latency_range := ⟨0, 0⟩,
    mode := MODE_REWAIT, b := buf_empty }

/-- A capture buffer of 100 bytes, byte `i` holding `100 + i`, cursor at 0. -/
def buf_100 : Buffer :=
  { buf := fun i => 100 + i, size := 100, offset := 0, frames_off := 0, srate := 48000 }

/-- PlaybackArmed; the click cursor is one frame before the end of the click. -/
def st_play_armed_7 : State :=
  { click := some click_8, click_offset := 7, input_latency_range := ⟨0, 0⟩,
    mode := MODE_LIWAIT, b := buf_100 }

/-- A cycle of 4 frames (16 bytes of 4-byte samples) with both locks obtained.
Byte `i` of the input port buffer holds `i`, so input sample `j` is the bytes
`4 * j, ..., 4 * j + 3`; the output port buffer holds the byte 7 everywhere
before the call. -/
def cy_4 : Cycle :=
  { nframes := 4, click_free := true, buffer_free := true, range := ⟨0, 0⟩,
    input := fun i => i, output := fun _ => 7, metronome := fun _ => 9 }

/-- Paused, click of 8 frames installed, the click cursor at 0. -/
def st_paused_click_8 : State :=
  { click := some click_8, click_offset := 0, input_latency_range := ⟨0, 0⟩,
    mode := MODE_PAUSED, b := buf_empty }

/-- A cycle of 8 frames with both locks obtained. -/
def cy_8 : Cycle :=
  { nframes := 8, click_free := true, buffer_free := true, range := ⟨0, 0⟩,
    input := fun i => i, output := fun _ => 7, metronome := fun _ => 9 }

/-- Paused with a capture latency range of 100 to 300 frames. -/
def st_paused_lat : State :=
  { click := none, click_offset := 0, input_latency_range := ⟨100, 300⟩,
    mode := MODE_PAUSED, b := buf_1000_900 }

/-- Recording with a capture latency range of 100 to 300 frames. -/
def st_recording_lat : State :=
  { click := none, click_offset := 0, input_latency_range := ⟨100, 300⟩,
    mode := MODE_RECORD, b := buf_1000_900 }

/-- Playing with a capture latency range of 100 to 300 frames. -/
def st_playing_lat : State :=
  { click := none, click_offset := 0, input_latency_range := ⟨100, 300⟩,
    mode := MODE_LISTEN, b := buf_1000_900 }

/-- A stand-in for the tone samples: sample `k` is `k + 1`, never zero. -/
def tone_ramp : Nat → Sample := fun k => k + 1

/-- A stand-in for the content of freshly allocated memory. -/
def fresh_5 : Nat → Sample := fun _ => 5

/-- Recording into a cleared capture buffer, click of 8 frames installed. -/
def st_recording_empty : State :=
  { click := some click_8, click_offset := 0, input_latency_range := ⟨0, 0⟩,
    mode := MODE_RECORD, b := buf_empty }

/-- A cycle of 256 frames with both locks obtained. -/
def cy_256 : Cycle :=
  { nframes := 256, click_free := true, buffer_free := true, range := ⟨0, 0⟩,
    input := fun i => i % 251, output := fun _ => 7, metronome := fun _ => 9 }

/-- The start of a session at 48000 Hz without a metronome, the capture
latency being 256 frames. -/
def st_init : State := init_state 48000 none ⟨256, 256⟩

/-- Playing a recording of 100 bytes, with a capture latency range of 100 to
300 frames. -/
def st_playing_short : State :=
  { click := none, click_offset := 0, input_latency_range := ⟨100, 300⟩,
    mode := MODE_LISTEN, b := buf_100 }

/-- Paused, click of 8 frames installed, the click cursor at 8, the end of the
click. -/
def st_cursor_at_end : State :=
  { click := some click_8, click_offset := 8, input_latency_range := ⟨0, 0⟩,
    mode := MODE_PAUSED, b := buf_empty }

/-- PlaybackArmed with an empty capture buffer; the click cursor is one frame
before the end of the click. -/
def st_play_armed_empty : State :=
  { click := some click_8, click_offset := 7, input_latency_range := ⟨0, 0⟩,
    mode := MODE_LIWAIT, b := buf_empty }

/-! # Theorems -/

/-! ## Arithmetic and frame lemmas -/

theorem sub32_of_le {a b : Nat} (hab : b ≤ a) (ha : a < U32) : sub32 a b = a - b := by
  unfold sub32 U32 at *
  omega

theorem sub32_lt (a b : Nat) : sub32 a b < U32 := by
  unfold sub32 U32
  omega

theorem sub32_zero {a : Nat} (ha : a < U32) : sub32 a 0 = a := by
  unfold sub32 U32 at *
  omega

theorem add32_of_lt {a b : Nat} (h : a + b < U32) : add32 a b = a + b := by
  unfold add32 U32 at *
  omega

@[simp]
theorem sync_click_offset (o : Nat) (s : State) (d : Nat) :
    (metronome_synchronize o s d).1.click_offset = s.click_offset := by
  unfold metronome_synchronize
  split <;> rfl

@[simp]
theorem sync_b (o : Nat) (s : State) (d : Nat) :
    (metronome_synchronize o s d).1.b = s.b := by
  unfold metronome_synchronize
  split <;> rfl

@[simp]
theorem sync_latency (o : Nat) (s : State) (d : Nat) :
    (metronome_synchronize o s d).1.input_latency_range = s.input_latency_range := by
  unfold metronome_synchronize
  split <;> rfl

@[simp]
theorem sync_click (o : Nat) (s : State) (d : Nat) :
    (metronome_synchronize o s d).1.click = s.click := by
  unfold metronome_synchronize
  split <;> rfl

/-- What the loop leaves alone, and what holds when it exits. -/
theorem click_fill_inv (c : Click) : ∀ (fuel : Nat) (f g : Fill), click_fill c fuel f = some g →
    (g.s.click_offset = f.s.click_offset ∨ g.s.click_offset = 0) ∧
    g.s.b = f.s.b ∧ g.s.input_latency_range = f.s.input_latency_range ∧
    g.s.click = f.s.click ∧ ¬ (sub32 c.size g.s.click_offset < g.remaining) ∧
    (f.written + f.remaining < U32 → g.written + g.remaining = f.written + f.remaining) := by
  intro fuel
  induction fuel with
  | zero => intro f g h; simp [click_fill] at h
  | succ n ih =>
    intro f g h
    unfold click_fill at h
    by_cases hlt : sub32 c.size f.s.click_offset < f.remaining
    · simp only [hlt, if_true] at h
      have := ih _ _ h
      simp only [sync_click_offset, sync_b, sync_latency, sync_click] at this
      obtain ⟨h1, h2, h3, h4, h5, h6⟩ := this
      refine ⟨?_, h2, h3, h4, h5, ?_⟩
      · rcases h1 with h1 | h1 <;> exact Or.inr h1
      · intro hN
        have hr : f.remaining < U32 := by omega
        have hs : sub32 f.remaining (sub32 c.size f.s.click_offset)
            = f.remaining - sub32 c.size f.s.click_offset := sub32_of_le (le_of_lt hlt) hr
        have ha : add32 f.written (sub32 c.size f.s.click_offset)
            = f.written + sub32 c.size f.s.click_offset := add32_of_lt (by omega)
        rw [hs, ha] at h6
        omega
    · simp only [hlt, if_false] at h
      cases h
      exact ⟨Or.inl rfl, rfl, rfl, rfl, hlt, fun _ => rfl⟩

/-- The loop finishes when the click is not empty and the fuel exceeds the
block length by two. -/
theorem click_fill_some (c : Click) (hc0 : 0 < c.size) (hc : c.size < U32) :
    ∀ (fuel : Nat) (f : Fill), f.remaining < U32 →
      f.remaining + (if sub32 c.size f.s.click_offset = 0 then 1 else 0) < fuel →
      ∃ g, click_fill c fuel f = some g := by
  intro fuel
  induction fuel with
  | zero => intro f _ h; omega
  | succ n ih =>
    intro f hr hm
    unfold click_fill
    by_cases hlt : sub32 c.size f.s.click_offset < f.remaining
    · simp only [hlt, if_true]
      apply ih
      · exact sub32_lt _ _
      · simp only [sync_click_offset]
        have hz : sub32 c.size 0 = c.size := sub32_zero hc
        have hs : sub32 f.remaining (sub32 c.size f.s.click_offset)
            = f.remaining - sub32 c.size f.s.click_offset := sub32_of_le (le_of_lt hlt) hr
        rw [hz, hs]
        have hne : ¬ c.size = 0 := by omega
        simp only [hne, if_false]
        split at hm <;> omega
    · exact ⟨f, by simp only [hlt, if_false]⟩

theorem process_metronome_frame {fuel : Nat} {cy : Cycle} {s : State} {m : Metro}
    (h : process_metronome fuel cy s = some m) :
    m.s.b = s.b ∧ m.s.input_latency_range = s.input_latency_range ∧ m.s.click = s.click := by
  unfold process_metronome at h
  split at h
  · cases h; exact ⟨rfl, rfl, rfl⟩
  · split at h
    · cases h; exact ⟨rfl, rfl, rfl⟩
    · rename_i c hc
      split at h
      · cases h
      · rename_i f hf
        cases h
        have := click_fill_inv c _ _ _ hf
        obtain ⟨-, h2, h3, h4, -, -⟩ := this
        unfold click_complete
        split
        · simp only [sync_b, sync_latency, sync_click]
          exact ⟨h2, h3, by rw [h4]⟩
        · exact ⟨h2, h3, by rw [h4]⟩

theorem change_mode_click_offset (s : State) (m : Nat) :
    (change_mode s m).click_offset = s.click_offset := by
  unfold change_mode
  repeat' split
  all_goals rfl

theorem process_buffer_click_offset (sw : Nat) (cy : Cycle) (m : Metro) :
    (process_buffer sw cy m).s.click_offset = m.s.click_offset := by
  unfold process_buffer
  dsimp only
  split_ifs <;> first | rfl | exact change_mode_click_offset _ _

theorem process_buffer_record_offset (sw : Nat) (cy : Cycle) (m : Metro) :
    (process_buffer sw cy m).record_offset = m.record_offset := by
  unfold process_buffer
  dsimp only
  split_ifs <;> rfl

/-! ## C1 -/

/-- C1 (as stated, refuted).  Playing with a capture buffer of 1000 bytes,
the cursor at 900 and a block that asks for 256 bytes: the block ends in
Paused with the cursor at 256, not in PlaybackArmed with the cursor at 0. -/
theorem process_exhausted_not_rearmed :
    st_playing.mode = MODE_LISTEN ∧ cy_64.buffer_free = true ∧
    sub64 st_playing.b.size st_playing.b.offset < mul64 4 cy_64.nframes ∧
    (process 4 2 cy_64 st_playing).map (fun r => (r.s.mode, r.s.b.offset))
      = some (MODE_PAUSED, 256) ∧
    (process 4 2 cy_64 st_playing).map (fun r => (r.s.mode, r.s.b.offset))
      ≠ some (MODE_LIWAIT, 0) := by
  decide

/-- The playing part of `process` on the source's own test: when the
metronome part leaves the mode Playing, the buffer lock is obtained and
`size > (b->size - b->offset)` holds in `size_t` arithmetic, `process` ends
in Paused with the cursor at the midpoint of the capture latency range. -/
theorem process_listen_test_pauses (sw fuel : Nat) (cy : Cycle) (s : State) (m : Metro)
    (hm : process_metronome fuel cy s = some m)
    (hmode : m.s.mode = MODE_LISTEN)
    (hlock : cy.buffer_free = true)
    (hex : sub64 m.s.b.size m.s.b.offset < mul64 sw (sub32 cy.nframes m.record_offset)) :
    ∃ r, process sw fuel cy s = some r ∧ r.s.mode = MODE_PAUSED ∧
      r.s.b.offset = add32 s.input_latency_range.min s.input_latency_range.max / 2 := by
  obtain ⟨-, hlat, -⟩ := process_metronome_frame hm
  refine ⟨process_buffer sw cy m, by simp [process, hm], ?_, ?_⟩
  · simp [process_buffer, hlock, hmode, hex, change_mode, MODE_LISTEN, MODE_RECORD]
  · simp [process_buffer, hlock, hmode, hex, change_mode, MODE_LISTEN, MODE_RECORD, hlat]

/-- With the cursor inside the buffer the `size_t` difference
`b->size - b->offset` is the number of bytes after the cursor. -/
theorem sub64_of_le {a b : Nat} (hab : b ≤ a) (ha : a < U64) : sub64 a b = a - b := by
  unfold sub64 U64 at *
  omega

/-- C1 (amended).  When the metronome part of `process` leaves the mode
Playing, the buffer lock is obtained, the cursor is inside the capture buffer
(`b.offset <= b.size`) and the block asks for more bytes than remain after
the cursor (`sizeof(sample) * (nframes - record_offset) > b.size - b.offset`),
`process` ends in Paused and the cursor is the midpoint of the capture
latency range (a 32-bit sum, halved). -/
theorem process_exhausted_pauses (sw fuel : Nat) (cy : Cycle) (s : State) (m : Metro)
    (hm : process_metronome fuel cy s = some m)
    (hmode : m.s.mode = MODE_LISTEN)
    (hlock : cy.buffer_free = true)
    (hcur : s.b.offset ≤ s.b.size)
    (hsz : s.b.size < 18446744073709551616)
    (hex : s.b.size - s.b.offset < mul64 sw (sub32 cy.nframes m.record_offset)) :
    ∃ r, process sw fuel cy s = some r ∧ r.s.mode = MODE_PAUSED ∧
      r.s.b.offset
        = (s.input_latency_range.min + s.input_latency_range.max) % 4294967296 / 2 := by
  obtain ⟨hb, -, -⟩ := process_metronome_frame hm
  apply process_listen_test_pauses sw fuel cy s m hm hmode hlock
  rw [hb, sub64_of_le hcur hsz]
  exact hex

theorem process_exhausted_pauses_witness :
    (process_metronome 2 cy_64 st_playing).map (fun m => (m.s.mode, m.record_offset))
      = some (MODE_LISTEN, 0) ∧
    cy_64.buffer_free = true ∧
    st_playing.b.offset ≤ st_playing.b.size ∧
    st_playing.b.size < 18446744073709551616 ∧
    st_playing.b.size - st_playing.b.offset < mul64 4 (sub32 cy_64.nframes 0) ∧
    ∃ r, process 4 2 cy_64 st_playing = some r ∧ r.s.mode = MODE_PAUSED ∧
      r.s.b.offset = (256 + 256) % 4294967296 / 2 :=
  ⟨by decide, rfl, by decide, by decide, by decide,
    process_exhausted_pauses 4 2 cy_64 st_playing _ rfl rfl rfl (by decide) (by decide)
      (by decide)⟩

/-- One turn of the loop. -/
theorem click_fill_step (c : Click) (fuel : Nat) (f : Fill)
    (h : sub32 c.size f.s.click_offset < f.remaining) :
    click_fill c (fuel + 1) f =
      click_fill c fuel
        { s := { f.s with
                 mode := (metronome_synchronize f.written f.s f.record_offset).1.mode
                 click_offset := 0 }
          record_offset := (metronome_synchronize f.written f.s f.record_offset).2
          remaining := sub32 f.remaining (sub32 c.size f.s.click_offset)
          written := add32 f.written (sub32 c.size f.s.click_offset)
          buf := memcpy f.buf f.written c.buf f.s.click_offset
                   (sub32 c.size f.s.click_offset) } := by
  rw [click_fill]
  simp only [h, if_true, sync_click_offset]
  congr 2
  unfold metronome_synchronize
  split <;> rfl

/-- The loop exit. -/
theorem click_fill_exit (c : Click) (fuel : Nat) (f : Fill)
    (h : ¬ sub32 c.size f.s.click_offset < f.remaining) :
    click_fill c (fuel + 1) f = some f := by
  rw [click_fill]
  simp only [h, if_false]

/-! ## The boundary in the metronome part -/

/-- The metronome part of `process` at a boundary: with a click installed,
the click lock obtained and the mode RecordArmed or PlaybackArmed, if
`0 < size - o < N <= size` then it reports `record_offset = size - o` and
leaves the mode Recording, respectively Playing. -/
theorem process_metronome_boundary (fuel : Nat) (cy : Cycle) (s : State) (c : Click)
    (hfuel : 2 ≤ fuel) (hclick : s.click = some c) (hfree : cy.click_free = true)
    (hmode : s.mode = MODE_REWAIT ∨ s.mode = MODE_LIWAIT)
    (hsize : c.size < U32)
    (h1 : 0 < c.size - s.click_offset) (h2 : c.size - s.click_offset < cy.nframes)
    (h3 : cy.nframes ≤ c.size) :
    ∃ m, process_metronome fuel cy s = some m ∧
      m.record_offset = c.size - s.click_offset ∧
      m.s.mode = (if s.mode = MODE_REWAIT then MODE_RECORD else MODE_LISTEN) ∧
      ∀ sw, ∃ r, process sw fuel cy s = some r ∧
        r.record_offset = c.size - s.click_offset := by
  suffices hmet : ∃ m, process_metronome fuel cy s = some m ∧
      m.record_offset = c.size - s.click_offset ∧
      m.s.mode = (if s.mode = MODE_REWAIT then MODE_RECORD else MODE_LISTEN) by
    obtain ⟨m, hm, hro, hmo⟩ := hmet
    refine ⟨m, hm, hro, hmo, fun sw => ⟨process_buffer sw cy m, ?_, ?_⟩⟩
    · rw [process, hm]
      rfl
    · rw [process_buffer_record_offset, hro]
  obtain ⟨k, rfl⟩ : ∃ k, fuel = k + 2 := ⟨fuel - 2, by omega⟩
  have ho : s.click_offset ≠ 0 := by omega
  have hsub : sub32 c.size s.click_offset = c.size - s.click_offset :=
    sub32_of_le (by omega) hsize
  have hsync : ∀ d, metronome_synchronize 0 s d = (s, d) := by
    intro d
    simp [metronome_synchronize, ho]
  have hrem : sub32 cy.nframes (c.size - s.click_offset)
      = cy.nframes - (c.size - s.click_offset) :=
    sub32_of_le (le_of_lt h2) (by omega)
  have hwr : add32 0 (c.size - s.click_offset) = c.size - s.click_offset := by
    rw [add32_of_lt (by omega), Nat.zero_add]
  have hpos : cy.nframes - (c.size - s.click_offset) > 0 := by omega
  simp only [process_metronome, hfree, hclick, Bool.true_eq_false, if_false]
  rw [click_fill_step c (k + 1) _ (by simpa only [hsub] using h2)]
  simp only [hsync, hsub, hrem, hwr]
  rw [click_fill_exit c k _ (by simp only [sub32_zero hsize]; omega)]
  refine ⟨_, rfl, ?_, ?_⟩
  · simp [click_complete, hpos, metronome_synchronize, hmode]
  · rcases hmode with hm | hm <;>
      simp [click_complete, hpos, metronome_synchronize, hm, MODE_LIWAIT, MODE_REWAIT]

/-- The recording part of `process` leaves the mode Recording. -/
theorem process_buffer_mode_record (sw : Nat) (cy : Cycle) (m : Metro)
    (hmode : m.s.mode = MODE_RECORD) : (process_buffer sw cy m).s.mode = MODE_RECORD := by
  unfold process_buffer
  dsimp only
  by_cases h1 : cy.buffer_free = false
  · rw [if_pos h1]
    exact hmode
  · rw [if_neg h1, if_pos hmode]
    exact hmode

/-- The playing part of `process` with the cursor inside the buffer: the mode
afterwards is Paused when the lock is obtained and the block asks for more
bytes than remain, and Playing otherwise. -/
theorem process_buffer_mode_listen (sw : Nat) (cy : Cycle) (m : Metro)
    (hmode : m.s.mode = MODE_LISTEN) (hcur : m.s.b.offset ≤ m.s.b.size)
    (hsz : m.s.b.size < U64) :
    (process_buffer sw cy m).s.mode
      = if cy.buffer_free = true ∧
            m.s.b.size - m.s.b.offset < mul64 sw (sub32 cy.nframes m.record_offset)
        then MODE_PAUSED else MODE_LISTEN := by
  have hne : ¬ m.s.mode = MODE_RECORD := by rw [hmode]; decide
  unfold process_buffer
  dsimp only
  rw [sub64_of_le hcur hsz]
  by_cases h1 : cy.buffer_free = false
  · have h1' : ¬ (cy.buffer_free = true ∧
        m.s.b.size - m.s.b.offset < mul64 sw (sub32 cy.nframes m.record_offset)) := by
      rw [h1]
      simp
    rw [if_pos h1, if_neg h1']
    exact hmode
  · have hfree : cy.buffer_free = true := by simpa using h1
    rw [if_neg h1, if_neg hne, if_pos hmode]
    by_cases hex : m.s.b.size - m.s.b.offset < mul64 sw (sub32 cy.nframes m.record_offset)
    · rw [if_pos hex, if_pos ⟨hfree, hex⟩]
      simp [change_mode, hmode, MODE_LISTEN, MODE_RECORD]
    · rw [if_neg hex, if_neg (fun h => hex h.2)]
      exact hmode

/-! ## C2 -/

/-- C2 (as stated, refuted).  PlaybackArmed with an empty capture buffer, a
click of 8 frames, the cursor at 7 and a block of 4 frames: `0 < 8 - 7 < 4 <=
8`, the boundary is reported at in-block index 1, and `process` ends in
Paused, not in Playing: the playing part of the same call finds the buffer
exhausted. -/
theorem process_boundary_not_playing :
    st_play_armed_empty.click = some click_8 ∧ cy_4.click_free = true ∧
    st_play_armed_empty.mode = MODE_LIWAIT ∧
    0 < click_8.size - st_play_armed_empty.click_offset ∧
    click_8.size - st_play_armed_empty.click_offset < cy_4.nframes ∧
    cy_4.nframes ≤ click_8.size ∧
    (process 4 2 cy_4 st_play_armed_empty).map (fun r => (r.s.mode, r.record_offset))
      = some (MODE_PAUSED, 1) ∧
    MODE_PAUSED ≠ MODE_LISTEN :=
  ⟨rfl, rfl, rfl, by decide, by decide, by decide, by decide, by decide⟩

/-- C2 (amended).  With a click installed, the click lock obtained and the
mode RecordArmed or PlaybackArmed, if `0 < size - o < N <= size` then
`process` returns with `record_offset = size - o`, and its metronome part
sets the mode to Recording, respectively Playing.  From RecordArmed the call
ends in Recording.  From PlaybackArmed, with the cursor inside the capture
buffer, the call ends in Playing, unless the buffer lock is obtained and fewer
than `sizeof(sample) * (N - (size - o))` bytes remain after the cursor: then
the same call goes on to Paused. -/
theorem process_boundary (sw fuel : Nat) (cy : Cycle) (s : State) (c : Click)
    (hfuel : 2 ≤ fuel) (hclick : s.click = some c) (hfree : cy.click_free = true)
    (hmode : s.mode = MODE_REWAIT ∨ s.mode = MODE_LIWAIT)
    (hsize : c.size < 4294967296)
    (h1 : 0 < c.size - s.click_offset) (h2 : c.size - s.click_offset < cy.nframes)
    (h3 : cy.nframes ≤ c.size) :
    ∃ r, process sw fuel cy s = some r ∧
      r.record_offset = c.size - s.click_offset ∧
      (process_metronome fuel cy s).map (fun m => m.s.mode)
        = some (if s.mode = MODE_REWAIT then MODE_RECORD else MODE_LISTEN) ∧
      (s.mode = MODE_REWAIT → r.s.mode = MODE_RECORD) ∧
      (s.mode = MODE_LIWAIT → s.b.offset ≤ s.b.size → s.b.size < 18446744073709551616 →
        r.s.mode
          = if cy.buffer_free = true ∧
                s.b.size - s.b.offset < mul64 sw (cy.nframes - (c.size - s.click_offset))
            then MODE_PAUSED else MODE_LISTEN) := by
  obtain ⟨m, hm, hro, hmo, -⟩ :=
    process_metronome_boundary fuel cy s c hfuel hclick hfree hmode hsize h1 h2 h3
  obtain ⟨hb, -, -⟩ := process_metronome_frame hm
  refine ⟨process_buffer sw cy m, by rw [process, hm]; rfl, ?_, ?_, ?_, ?_⟩
  · rw [process_buffer_record_offset, hro]
  · rw [hm]
    simp only [Option.map_some', hmo]
  · intro hre
    apply process_buffer_mode_record
    rw [hmo, if_pos hre]
  · intro hli hcur hsz
    have hne : ¬ s.mode = MODE_REWAIT := by rw [hli]; decide
    have hml : m.s.mode = MODE_LISTEN := by rw [hmo, if_neg hne]
    rw [process_buffer_mode_listen sw cy m hml (by rw [hb]; exact hcur) (by rw [hb]; exact hsz),
      hb, hro, sub32_of_le (le_of_lt h2) (by unfold U32; omega)]

theorem process_boundary_witness :
    st_armed_47800.click = some click_48000 ∧ cy_512.click_free = true ∧
    st_armed_47800.mode = MODE_REWAIT ∧ click_48000.size < 4294967296 ∧
    0 < click_48000.size - st_armed_47800.click_offset ∧
    click_48000.size - st_armed_47800.click_offset < cy_512.nframes ∧
    cy_512.nframes ≤ click_48000.size ∧
    (∃ r, process 4 2 cy_512 st_armed_47800 = some r ∧
      r.record_offset = 200 ∧ r.s.mode = MODE_RECORD) ∧
    st_play_armed_7.mode = MODE_LIWAIT ∧
    st_play_armed_7.b.offset ≤ st_play_armed_7.b.size ∧
    (∃ r, process 4 2 cy_4 st_play_armed_7 = some r ∧
      r.record_offset = 1 ∧ r.s.mode = MODE_LISTEN) := by
  refine ⟨rfl, rfl, rfl, by decide, by decide, by decide, by decide, ?_, rfl, by decide, ?_⟩
  · obtain ⟨r, hr, hro, -, hrec, -⟩ :=
      process_boundary 4 2 cy_512 st_armed_47800 click_48000 (by decide) rfl rfl
        (Or.inl rfl) (by decide) (by decide) (by decide) (by decide)
    exact ⟨r, hr, hro, hrec rfl⟩
  · obtain ⟨r, hr, hro, -, -, hli⟩ :=
      process_boundary 4 2 cy_4 st_play_armed_7 click_8 (by decide) rfl rfl
        (Or.inr rfl) (by decide) (by decide) (by decide) (by decide)
    refine ⟨r, hr, hro, ?_⟩
    rw [hli rfl (by decide) (by decide)]
    decide

/-! ## C3 -/

/-- C3 (the code at the failing input).  Recording starts at in-block index
`d = 1` of a block of 4 four-byte samples.  The claim asks for the input
samples 1, 2, 3, that is the input bytes 4 to 15; the code stores 12 bytes,
but they are the bytes 16 to 27 of the input port memory (sample indices 4, 5
and 6, past the end of the block), because `s + offset` adds the byte count
`offset` to a pointer to samples. -/
theorem process_record_reads_scaled_offset :
    (process 4 2 cy_4 st_rec_armed_7).map
        (fun r => (r.s.mode, r.record_offset, r.s.b.size, (List.range 12).map r.s.b.buf))
      = some (MODE_RECORD, 1, 12, [16, 17, 18, 19, 20, 21, 22, 23, 24, 25, 26, 27]) ∧
    (List.range' (4 * 1) (4 * (4 - 1))).map cy_4.input
      = [4, 5, 6, 7, 8, 9, 10, 11, 12, 13, 14, 15] := by
  decide

/-! ## C4 -/

/-- C4 (the code at two failing inputs).  First: Playing, 100 bytes left in
the capture buffer, a block of 64 four-byte samples (256 bytes), `d = 0`.
The 100 bytes are copied to the start of the block, but every byte from 100
to 255 of the block keeps its earlier content, 7 here, instead of becoming
zero: the zero fill starts at sample index 100, byte 400, outside the block.
Second: playback starts at in-block index `d = 1` of a block of 4 samples with
enough recorded data.  The first sample is zeroed, the samples 1 to 3 of the
block keep their earlier content, and the 12 recorded bytes land at the bytes
16 to 27, past the end of the block. -/
theorem process_listen_writes_scaled_offset :
    (∃ r, process 4 2 cy_64 st_playing = some r ∧
      (∀ i, i < 100 → r.output i = (900 + i) % 256) ∧
      (∀ i, 100 ≤ i → i < 256 → r.output i = 7) ∧
      (∀ i, 400 ≤ i → i < 556 → r.output i = 0)) ∧
    (process 4 2 cy_4 st_play_armed_7).map
        (fun r => (r.s.mode, r.record_offset, (List.range 16).map r.output,
                   (List.range' 16 12).map r.output))
      = some (MODE_LISTEN, 1, [0, 0, 0, 0, 7, 7, 7, 7, 7, 7, 7, 7, 7, 7, 7, 7],
              [100, 101, 102, 103, 104, 105, 106, 107, 108, 109, 110, 111]) := by
  refine ⟨⟨_, rfl, ?_, ?_, ?_⟩, by decide⟩
  · intro i hi
    change (memset0 (memcpy (memset0 (fun _ => 7) 0 0) 0 (fun i => i % 256) 900 100)
      400 156) i = _
    simp only [memcpy, memset0]
    rw [if_neg (by omega), if_pos (by omega)]
    omega
  · intro i h1 h2
    change (memset0 (memcpy (memset0 (fun _ => 7) 0 0) 0 (fun i => i % 256) 900 100)
      400 156) i = _
    simp only [memcpy, memset0]
    rw [if_neg (by omega), if_neg (by omega), if_neg (by omega)]
  · intro i h1 h2
    change (memset0 (memcpy (memset0 (fun _ => 7) 0 0) 0 (fun i => i % 256) 900 100)
      400 156) i = _
    simp only [memset0]
    rw [if_pos (by omega)]


/-- The metronome part with a click installed and the lock obtained: the loop
finishes, and the cursor afterwards is described by the loop's exit state. -/
theorem process_metronome_click {fuel : Nat} {cy : Cycle} {s : State} {c : Click}
    (hclick : s.click = some c) (hfree : cy.click_free = true)
    (hc0 : 0 < c.size) (hc : c.size < U32) (hN : cy.nframes < U32)
    (hfuel : cy.nframes + 2 ≤ fuel) :
    ∃ g, click_fill c fuel
        { s := s, record_offset := 0, remaining := cy.nframes, written := 0,
          buf := cy.metronome } = some g ∧
      process_metronome fuel cy s
        = some { s := (click_complete c g).s, record_offset := (click_complete c g).record_offset,
                 metronome := (click_complete c g).buf } := by
  obtain ⟨g, hg⟩ := click_fill_some c hc0 hc fuel
    { s := s, record_offset := 0, remaining := cy.nframes, written := 0, buf := cy.metronome }
    hN (by dsimp only; split <;> omega)
  refine ⟨g, hg, ?_⟩
  simp only [process_metronome, hfree, hclick, Bool.true_eq_false, if_false, hg]

/-! ## C5 -/

/-- C5 (as stated, refuted).  A click of 8 frames with the cursor at 0, and
a block of 8 frames with the click lock obtained: the cursor ends at 8, which
is the click size and so not below it. -/
theorem process_cursor_reaches_size :
    st_paused_click_8.click = some click_8 ∧ 0 < click_8.size ∧
    st_paused_click_8.click_offset < click_8.size ∧ cy_8.click_free = true ∧
    (process 4 10 cy_8 st_paused_click_8).map (fun r => r.s.click_offset) = some 8 ∧
    ¬ (8 < click_8.size) :=
  ⟨rfl, by decide, by decide, rfl, by decide, by decide⟩

/-- C5 (amended).  With a click of size `0 < size < 2^32` installed and the
click lock obtained, `click_offset <= click.size` before `process` gives
`click_offset <= click.size` after it. -/
theorem process_cursor_le_size (sw fuel : Nat) (cy : Cycle) (s : State) (c : Click)
    (hclick : s.click = some c) (hfree : cy.click_free = true)
    (hc0 : 0 < c.size) (hc : c.size < U32) (hN : cy.nframes < U32)
    (hfuel : cy.nframes + 2 ≤ fuel) (hoff : s.click_offset ≤ c.size) :
    ∃ r, process sw fuel cy s = some r ∧ r.s.click_offset ≤ c.size := by
  obtain ⟨g, hg, hm⟩ := process_metronome_click hclick hfree hc0 hc hN hfuel
  refine ⟨_, by rw [process, hm]; rfl, ?_⟩
  rw [process_buffer_click_offset]
  obtain ⟨h1, -, -, -, h5, -⟩ := click_fill_inv c _ _ _ hg
  dsimp only at h1
  have hgo : g.s.click_offset ≤ c.size := by
    rcases h1 with h1 | h1 <;> omega
  have hsub : sub32 c.size g.s.click_offset = c.size - g.s.click_offset :=
    sub32_of_le hgo hc
  rw [hsub] at h5
  dsimp only
  unfold click_complete
  split
  · simp only [sync_click_offset]
    rw [add32_of_lt (by omega)]
    omega
  · exact hgo

theorem process_cursor_le_size_witness :
    st_paused_click_8.click = some click_8 ∧ cy_8.click_free = true ∧
    0 < click_8.size ∧ click_8.size < U32 ∧ cy_8.nframes < U32 ∧
    cy_8.nframes + 2 ≤ 10 ∧ st_paused_click_8.click_offset ≤ click_8.size ∧
    ∃ r, process 4 10 cy_8 st_paused_click_8 = some r ∧ r.s.click_offset ≤ click_8.size :=
  ⟨rfl, rfl, by decide, by decide, by decide, by decide, by decide,
    process_cursor_le_size 4 10 cy_8 st_paused_click_8 click_8 rfl rfl
      (by decide) (by decide) (by decide) (by decide) (by decide)⟩

/-! ## The contended metronome part -/

/-- C7.  The toggle `change_mode(b, 0)`: from Paused the mode becomes
RecordArmed; from Recording it becomes PlaybackArmed and the cursor is 0; from
Playing it becomes Paused and the cursor is
`(input_latency_range.min + input_latency_range.max) / 2`, the sum being the
source's 32-bit unsigned sum (the plain sum whenever that is below `2^32`). -/
theorem change_mode_toggle (s : State) :
    (s.mode = MODE_PAUSED → (change_mode s 0).mode = MODE_REWAIT) ∧
    (s.mode = MODE_RECORD →
      (change_mode s 0).mode = MODE_LIWAIT ∧ (change_mode s 0).b.offset = 0) ∧
    (s.mode = MODE_LISTEN →
      (change_mode s 0).mode = MODE_PAUSED ∧
      (change_mode s 0).b.offset
        = (s.input_latency_range.min + s.input_latency_range.max) % 4294967296 / 2 ∧
      (s.input_latency_range.min + s.input_latency_range.max < 4294967296 →
        (change_mode s 0).b.offset
          = (s.input_latency_range.min + s.input_latency_range.max) / 2)) := by
  refine ⟨?_, ?_, ?_⟩
  · intro h
    simp [change_mode, h, MODE_PAUSED, MODE_RECORD, MODE_LISTEN]
  · intro h
    simp [change_mode, h]
  · intro h
    have hoff : (change_mode s 0).b.offset
        = (s.input_latency_range.min + s.input_latency_range.max) % 4294967296 / 2 := by
      simp [change_mode, h, MODE_RECORD, MODE_LISTEN, add32, U32]
    refine ⟨?_, hoff, ?_⟩
    · simp [change_mode, h, MODE_RECORD, MODE_LISTEN]
    · intro hlt
      rw [hoff, Nat.mod_eq_of_lt hlt]

theorem change_mode_toggle_witness :
    (change_mode st_paused_lat 0).mode = MODE_REWAIT ∧
    ((change_mode st_recording_lat 0).mode = MODE_LIWAIT ∧
      (change_mode st_recording_lat 0).b.offset = 0) ∧
    ((change_mode st_playing_lat 0).mode = MODE_PAUSED ∧
      (change_mode st_playing_lat 0).b.offset = (100 + 300) / 2) :=
  ⟨(change_mode_toggle st_paused_lat).1 rfl,
    (change_mode_toggle st_recording_lat).2.1 rfl,
    ((change_mode_toggle st_playing_lat).2.2 rfl).1,
    ((change_mode_toggle st_playing_lat).2.2 rfl).2.2 (by decide)⟩

/-! ## metronome.c: sizes -/

/-- Without wrap-around, `generate_click` returns a click of `60 * srate / bpm`
frames. -/
theorem generate_click_size (tone fresh : Nat → Sample) (bpm srate beep_ratio : Nat)
    (hbpm : 0 < bpm) (hbpm32 : bpm < U32) (hratio : 0 < beep_ratio)
    (hfit : 60 * srate / bpm < U32) :
    generate_click tone fresh bpm srate beep_ratio
      = some { buf := fill_silence (beep_frames bpm srate beep_ratio (60 * srate / bpm))
                        (60 * srate / bpm)
                        (fill_tone tone (beep_frames bpm srate beep_ratio (60 * srate / bpm))
                          fresh)
               size := 60 * srate / bpm } := by
  have h1 : 60 * srate < U32 * bpm := (Nat.div_lt_iff_lt_mul hbpm).1 hfit
  have h2 : 60 * srate < U64 := by
    unfold U32 at h1 hbpm32
    unfold U64
    omega
  have hb : ¬ bpm = 0 := by omega
  have hr : ¬ beep_ratio = 0 := by omega
  simp only [generate_click, hb, hr, if_false, Nat.mod_eq_of_lt h2, Nat.mod_eq_of_lt hfit]

/-- Below 60 beats per minute the tone is no longer than the click, when the
click length fits 32 bits. -/
theorem beep_frames_slow (bpm srate beep_ratio size : Nat) (hbpm : 0 < bpm)
    (hslow : bpm < 60) (hfit : 60 * srate / bpm < U32) :
    beep_frames bpm srate beep_ratio size = srate / beep_ratio ∧
    srate / beep_ratio ≤ 60 * srate / bpm := by
  have h1 : srate ≤ 60 * srate / bpm := by
    rw [Nat.le_div_iff_mul_le hbpm, Nat.mul_comm 60 srate]
    exact Nat.mul_le_mul_left srate (by omega)
  have h2 : srate / beep_ratio ≤ srate := Nat.div_le_self _ _
  refine ⟨?_, by omega⟩
  simp only [beep_frames, hslow, if_true]
  exact Nat.mod_eq_of_lt (by omega)

/-! ## C8 -/

/-- C8 (as stated, refuted).  At tempo 0 (below 60) the division by the tempo
has no result and no click is built.  At tempo 30 and sample rate `2^31` the
cycle length `2^32` does not fit `jack_nframes_t`: the size is 0 and the tone
length 214748364 exceeds it.  At tempo 60 and sample rate `2^32` the size is
0, not `60 * 2^32 / 60`. -/
theorem generate_click_formulas_fail :
    (generate_click tone_ramp fresh_5 0 48000 10).isNone = true ∧
    (generate_click tone_ramp fresh_5 30 2147483648 10).map
        (fun c => (c.size, beep_frames 30 2147483648 10 c.size, 2147483648 / 10,
                   decide (beep_frames 30 2147483648 10 c.size ≤ c.size)))
      = some (0, 214748364, 214748364, false) ∧
    (generate_click tone_ramp fresh_5 60 4294967296 10).map
        (fun c => (c.size, 60 * 4294967296 / 60)) = some (0, 4294967296) := by
  decide

/-- C8 (amended).  For a tempo `t > 0`, a beep fraction `> 0` and a sample
rate `r` such that `60 * r / t` is below `2^32`, `generate_click` returns a
click with `size = 60 * r / t`; when `t >= 60` the tone length is
`size / beepFraction`, and when `t < 60` it is `r / beepFraction`, which is at
most `size`. -/
theorem generate_click_formulas (tone fresh : Nat → Sample) (t r beepFraction : Nat)
    (ht : 0 < t) (ht32 : t < 4294967296) (hbf : 0 < beepFraction)
    (hfit : 60 * r / t < 4294967296) :
    ∃ c, generate_click tone fresh t r beepFraction = some c ∧
      c.size = 60 * r / t ∧
      (60 ≤ t → beep_frames t r beepFraction c.size = c.size / beepFraction) ∧
      (t < 60 → beep_frames t r beepFraction c.size = r / beepFraction ∧
        beep_frames t r beepFraction c.size ≤ c.size) := by
  refine ⟨_, generate_click_size tone fresh t r beepFraction ht ht32 hbf hfit, rfl, ?_, ?_⟩
  · intro h60
    have : ¬ t < 60 := by omega
    simp only [beep_frames, this, if_false]
  · intro hslow
    obtain ⟨h1, h2⟩ := beep_frames_slow t r beepFraction (60 * r / t) ht hslow hfit
    exact ⟨h1, by rw [h1]; exact h2⟩

theorem generate_click_formulas_witness :
    (0 < 60) ∧ (60 < 4294967296) ∧ (0 < 10) ∧ (60 * 48000 / 60 < 4294967296) ∧
    ∃ c, generate_click tone_ramp fresh_5 60 48000 10 = some c ∧
      c.size = 60 * 48000 / 60 ∧
      (60 ≤ 60 → beep_frames 60 48000 10 c.size = c.size / 10) ∧
      (60 < 60 → beep_frames 60 48000 10 c.size = 48000 / 10 ∧
        beep_frames 60 48000 10 c.size ≤ c.size) :=
  ⟨by decide, by decide, by decide, by decide,
    generate_click_formulas tone_ramp fresh_5 60 48000 10 (by decide) (by decide)
      (by decide) (by decide)⟩

/-! ## metronome.c: samples -/

/-- The tone loop writes `tone k` at every index below `beep` and nothing
else. -/
theorem fill_tone_apply (tone : Nat → Sample) (beep : Nat) (buf : Nat → Sample) (k : Nat) :
    fill_tone tone beep buf k = if k < beep then tone k else buf k := by
  unfold fill_tone
  induction beep with
  | zero => simp
  | succ n ih =>
    rw [List.range_succ, List.foldl_append, List.foldl_cons, List.foldl_nil]
    by_cases hk : k = n
    · subst hk
      simp
    · rw [Function.update_noteq hk, ih]
      by_cases h1 : k < n
      · have h2 : k < n + 1 := by omega
        simp only [h1, h2, if_true]
      · have h2 : ¬ k < n + 1 := by omega
        simp only [h1, h2, if_false]

/-- Writing zero at the indices `start, ..., start + n - 1`. -/
theorem foldl_zero_apply (n : Nat) : ∀ (start : Nat) (buf : Nat → Sample) (k : Nat),
    (List.range' start n).foldl (fun m j => Function.update m j (0 : Sample)) buf k
      = if start ≤ k ∧ k < start + n then 0 else buf k := by
  induction n with
  | zero =>
    intro start buf k
    have : ¬ (start ≤ k ∧ k < start + 0) := by omega
    simp only [List.range'_zero, List.foldl_nil, this, if_false]
  | succ n ih =>
    intro start buf k
    rw [List.range'_succ, List.foldl_cons, ih]
    by_cases hk : k = start
    · subst hk
      by_cases h1 : k + 1 ≤ k ∧ k < k + 1 + n
      · omega
      · have h2 : k ≤ k ∧ k < k + (n + 1) := by omega
        rw [if_neg h1, if_pos h2, Function.update_same]
    · rw [Function.update_noteq hk]
      by_cases h1 : start + 1 ≤ k ∧ k < start + 1 + n
      · have h2 : start ≤ k ∧ k < start + (n + 1) := by omega
        simp only [h1, h2, if_true]
      · have h2 : ¬ (start ≤ k ∧ k < start + (n + 1)) := by omega
        simp only [h1, h2, if_false]

/-- The silence loop writes zero at every index from `beep` up to `size` and
nothing else. -/
theorem fill_silence_apply (beep size : Nat) (buf : Nat → Sample) (k : Nat) :
    fill_silence beep size buf k = if beep ≤ k ∧ k < size then 0 else buf k := by
  unfold fill_silence
  rw [foldl_zero_apply]
  by_cases h1 : beep ≤ k ∧ k < size
  · have h2 : beep ≤ k ∧ k < beep + (size - beep) := by omega
    simp only [h1, h2, if_true]
  · have h2 : ¬ (beep ≤ k ∧ k < beep + (size - beep)) := by omega
    simp only [h1, h2, if_false]

/-! ## C9 -/

/-- C9 (as stated, refuted).  At 2880001 beats per minute and 48000 Hz the
click has size 0.  At 30 beats per minute and a sample rate of `2^31` the
size wraps to 0 and the tone length 214748364 exceeds it. -/
theorem generate_click_invariant_fails :
    (0 < 2880001) ∧ (0 < 10) ∧
    (generate_click tone_ramp fresh_5 2880001 48000 10).map
        (fun c => (c.size, decide (0 < c.size))) = some (0, false) ∧
    (generate_click tone_ramp fresh_5 30 2147483648 10).map
        (fun c => (c.size, beep_frames 30 2147483648 10 c.size,
                   decide (beep_frames 30 2147483648 10 c.size ≤ c.size)))
      = some (0, 214748364, false) := by
  decide

/-- C9 (amended).  For a tempo with `0 < bpm <= 60 * srate`, a beep fraction
`> 0` and `60 * srate / bpm` below `2^32`, the click `generate_click` builds
has `size > 0`, a tone length `beepFrames <= size`, the tone samples at the
indices below `beepFrames`, and the zero sample at every index from
`beepFrames` up to `size`. -/
theorem generate_click_invariant (tone fresh : Nat → Sample) (bpm srate beep_ratio : Nat)
    (hbpm : 0 < bpm) (hbpm32 : bpm < 4294967296) (hfast : bpm ≤ 60 * srate)
    (hratio : 0 < beep_ratio) (hfit : 60 * srate / bpm < 4294967296) :
    ∃ c, generate_click tone fresh bpm srate beep_ratio = some c ∧
      0 < c.size ∧
      beep_frames bpm srate beep_ratio c.size ≤ c.size ∧
      (∀ k, k < beep_frames bpm srate beep_ratio c.size → c.buf k = tone k) ∧
      (∀ k, beep_frames bpm srate beep_ratio c.size ≤ k → k < c.size → c.buf k = 0) := by
  refine ⟨_, generate_click_size tone fresh bpm srate beep_ratio hbpm hbpm32 hratio hfit,
    ?_, ?_, ?_, ?_⟩
  · exact Nat.div_pos hfast hbpm
  · by_cases hslow : bpm < 60
    · obtain ⟨h1, h2⟩ := beep_frames_slow bpm srate beep_ratio (60 * srate / bpm) hbpm hslow hfit
      rw [h1]
      exact h2
    · simp only [beep_frames, hslow, if_false]
      exact Nat.div_le_self _ _
  · intro k hk
    dsimp only at hk ⊢
    rw [fill_silence_apply, fill_tone_apply]
    have h1 : ¬ (beep_frames bpm srate beep_ratio (60 * srate / bpm) ≤ k ∧
        k < 60 * srate / bpm) := by omega
    simp only [h1, hk, if_false, if_true]
  · intro k hk1 hk2
    dsimp only at hk1 hk2 ⊢
    rw [fill_silence_apply]
    simp only [hk1, hk2, and_self, if_true]

theorem generate_click_invariant_witness :
    (0 < 60) ∧ (60 < 4294967296) ∧ (60 ≤ 60 * 48000) ∧ (0 < 10) ∧
    (60 * 48000 / 60 < 4294967296) ∧
    ∃ c, generate_click tone_ramp fresh_5 60 48000 10 = some c ∧
      0 < c.size ∧
      beep_frames 60 48000 10 c.size ≤ c.size ∧
      (∀ k, k < beep_frames 60 48000 10 c.size → c.buf k = tone_ramp k) ∧
      (∀ k, beep_frames 60 48000 10 c.size ≤ k → k < c.size → c.buf k = 0) :=
  ⟨by decide, by decide, by decide, by decide, by decide,
    generate_click_invariant tone_ramp fresh_5 60 48000 10 (by decide) (by decide)
      (by decide) (by decide) (by decide)⟩

/-! ## Recording blocks -/

/-- Outside the two armed modes `metronome_synchronize` does nothing. -/
theorem sync_idle (o : Nat) (s : State) (d : Nat)
    (h1 : s.mode ≠ MODE_REWAIT) (h2 : s.mode ≠ MODE_LIWAIT) :
    metronome_synchronize o s d = (s, d) := by
  simp [metronome_synchronize, h1, h2]

/-- Outside the two armed modes the loop changes neither the mode nor
`record_offset`. -/
theorem click_fill_idle (c : Click) : ∀ (fuel : Nat) (f g : Fill),
    f.s.mode ≠ MODE_REWAIT → f.s.mode ≠ MODE_LIWAIT → click_fill c fuel f = some g →
    g.s.mode = f.s.mode ∧ g.record_offset = f.record_offset := by
  intro fuel
  induction fuel with
  | zero => intro f g _ _ h; simp [click_fill] at h
  | succ n ih =>
    intro f g h1 h2 h
    by_cases hlt : sub32 c.size f.s.click_offset < f.remaining
    · rw [click_fill_step c n f hlt, sync_idle _ _ _ h1 h2] at h
      have key := ih _ g (by exact h1) (by exact h2) h
      exact key
    · rw [click_fill_exit c n f hlt] at h
      cases h
      exact ⟨rfl, rfl⟩

/-- The metronome part of `process` in Recording mode: it returns, reports
no boundary, and leaves the mode, the click and the capture buffer alone. -/
theorem process_metronome_recording {fuel : Nat} {cy : Cycle} {s : State}
    (hmode : s.mode = MODE_RECORD)
    (hclick : ∀ c, s.click = some c → 0 < c.size ∧ c.size < U32)
    (hN : cy.nframes < U32) (hfuel : cy.nframes + 2 ≤ fuel) :
    ∃ m, process_metronome fuel cy s = some m ∧ m.s.mode = MODE_RECORD ∧
      m.record_offset = 0 ∧ m.s.b = s.b ∧ m.s.click = s.click := by
  have hne1 : s.mode ≠ MODE_REWAIT := by rw [hmode]; decide
  have hne2 : s.mode ≠ MODE_LIWAIT := by rw [hmode]; decide
  by_cases hfree : cy.click_free = false
  · have hm : process_metronome fuel cy s
        = some ⟨{ s with click_offset := add32 s.click_offset cy.nframes }, 0, cy.metronome⟩ := by
      simp only [process_metronome, hfree, if_true]
    exact ⟨_, hm, hmode, rfl, rfl, rfl⟩
  · have hfree1 : cy.click_free = true := by simpa using hfree
    cases hcl : s.click with
    | none =>
      have hm : process_metronome fuel cy s
          = some ⟨{ s with mode := MODE_RECORD }, 0, memset0 cy.metronome 0 cy.nframes⟩ := by
        simp [process_metronome, hfree1, hcl, hmode, MODE_RECORD, MODE_REWAIT, MODE_LIWAIT]
      exact ⟨_, hm, rfl, rfl, rfl, hcl⟩
    | some c =>
      obtain ⟨hc0, hc⟩ := hclick c hcl
      obtain ⟨g, hg, hm⟩ := process_metronome_click hcl hfree1 hc0 hc hN hfuel
      obtain ⟨hgm, hgr⟩ := click_fill_idle c _ _ _ hne1 hne2 hg
      obtain ⟨-, hgb, -, hgc, -, -⟩ := click_fill_inv c _ _ _ hg
      dsimp only at hgm hgr hgb hgc
      have hg1 : g.s.mode ≠ MODE_REWAIT := by rw [hgm]; exact hne1
      have hg2 : g.s.mode ≠ MODE_LIWAIT := by rw [hgm]; exact hne2
      refine ⟨_, hm, ?_, ?_, ?_, ?_⟩
      all_goals
        dsimp only
        unfold click_complete
        split
        · simp only [sync_idle _ _ _ hg1 hg2]
          first | exact hgm.trans hmode | exact hgr | exact hgb | exact hgc.trans hcl
        · first | exact hgm.trans hmode | exact hgr | exact hgb | exact hgc.trans hcl

/-- One call of `process` in Recording mode with the buffer lock obtained:
the size and the cursor of the capture buffer both grow by `sw * nframes`
(in 64-bit arithmetic), and the mode and the click stay. -/
theorem process_recording_step (sw fuel : Nat) (cy : Cycle) (s : State)
    (hmode : s.mode = MODE_RECORD) (hlock : cy.buffer_free = true)
    (hclick : ∀ c, s.click = some c → 0 < c.size ∧ c.size < U32)
    (hN : cy.nframes < U32) (hfuel : cy.nframes + 2 ≤ fuel) :
    ∃ r, process sw fuel cy s = some r ∧ r.s.mode = MODE_RECORD ∧ r.s.click = s.click ∧
      r.s.b.size = add64 s.b.size (mul64 sw cy.nframes) ∧
      r.s.b.offset = add64 s.b.offset (mul64 sw cy.nframes) := by
  obtain ⟨m, hm, hmm, hmr, hmb, hmc⟩ := process_metronome_recording hmode hclick hN hfuel
  have hsub : sub32 cy.nframes 0 = cy.nframes := sub32_zero hN
  refine ⟨_, by rw [process, hm]; rfl, ?_, ?_, ?_, ?_⟩
  all_goals
    simp only [process_buffer, hlock, hmm, hmr, hsub, Bool.true_eq_false, if_false, if_true]
  · exact hmc
  · rw [hmb]
  · rw [hmb]

/-- Consecutive Recording blocks of `N` frames, from a state whose cursor
equals the buffer size `a`: the calls all return, and the size and the cursor
end at `a + k * (N * sw)`. -/
theorem run_recording_from (sw fuel N : Nat) (hN : N < U32) (hfuel : N + 2 ≤ fuel) :
    ∀ (cys : List Cycle) (s : State),
      (∀ cy ∈ cys, cy.nframes = N ∧ cy.buffer_free = true) →
      s.mode = MODE_RECORD →
      (∀ c, s.click = some c → 0 < c.size ∧ c.size < U32) →
      s.b.offset = s.b.size →
      s.b.size + cys.length * (N * sw) < U64 →
      ∃ t, run sw fuel cys s = some t ∧ t.mode = MODE_RECORD ∧
        t.b.size = s.b.size + cys.length * (N * sw) ∧ t.b.offset = t.b.size := by
  intro cys
  induction cys with
  | nil =>
    intro s _ hmode _ hoff _
    exact ⟨s, rfl, hmode, by simp, hoff⟩
  | cons cy rest ih =>
    intro s hcys hmode hclick hoff hfit
    obtain ⟨hcyN, hcyL⟩ := hcys cy (List.mem_cons_self _ _)
    obtain ⟨r, hr, hrm, hrc, hrs, hro⟩ :=
      process_recording_step sw fuel cy s hmode hcyL hclick
        (by rw [hcyN]; exact hN) (by rw [hcyN]; exact hfuel)
    rw [hcyN] at hrs hro
    have hlen : (cy :: rest).length * (N * sw) = N * sw + rest.length * (N * sw) := by
      rw [List.length_cons, Nat.succ_mul, Nat.add_comm]
    rw [hlen] at hfit
    have hmul : mul64 sw N = N * sw := by
      unfold mul64
      rw [Nat.mul_comm sw N]
      exact Nat.mod_eq_of_lt (by omega)
    have hadd : add64 s.b.size (N * sw) = s.b.size + N * sw := by
      unfold add64
      exact Nat.mod_eq_of_lt (by omega)
    rw [hmul, hadd] at hrs
    rw [hmul, hoff, hadd] at hro
    obtain ⟨t, ht, htm, hts, hto⟩ := ih r.s
      (fun c hc => hcys c (List.mem_cons_of_mem _ hc)) hrm
      (fun c hc => hclick c (by rw [← hrc]; exact hc)) (by rw [hro, hrs])
      (by rw [hrs]; omega)
    refine ⟨t, ?_, htm, ?_, hto⟩
    · simp only [run, hr]
      exact ht
    · rw [hts, hrs, hlen]
      omega

/-! ## C10 -/

/-- C10.  From a cleared capture buffer (size 0, cursor 0), `k` consecutive
calls of `process` in Recording mode, each with the buffer lock obtained and a
block of `N` frames, all return and leave the capture buffer with size
`k * N * sampleWidth` and the cursor equal to the size.  (`sampleWidth` is
`sizeof(jack_default_audio_sample_t)`; the click, if one is installed, is not
empty; the total fits `size_t`.) -/
theorem run_recording_size (sampleWidth fuel N : Nat) (cys : List Cycle) (s : State)
    (hN : N < 4294967296) (hfuel : N + 2 ≤ fuel)
    (hcys : ∀ cy ∈ cys, cy.nframes = N ∧ cy.buffer_free = true)
    (hmode : s.mode = MODE_RECORD)
    (hclick : ∀ c, s.click = some c → 0 < c.size ∧ c.size < 4294967296)
    (hsize : s.b.size = 0) (hoff : s.b.offset = 0)
    (hfit : cys.length * N * sampleWidth < 18446744073709551616) :
    ∃ t, run sampleWidth fuel cys s = some t ∧
      t.b.size = cys.length * N * sampleWidth ∧ t.b.offset = t.b.size := by
  obtain ⟨t, ht, -, hts, hto⟩ := run_recording_from sampleWidth fuel N hN hfuel cys s hcys hmode
    hclick (by rw [hoff, hsize]) (by rw [hsize, Nat.zero_add, ← Nat.mul_assoc]; exact hfit)
  refine ⟨t, ht, ?_, hto⟩
  rw [hts, hsize, Nat.zero_add, Nat.mul_assoc]

theorem run_recording_size_witness :
    (256 < 4294967296) ∧ (256 + 2 ≤ 258) ∧
    st_recording_empty.mode = MODE_RECORD ∧
    st_recording_empty.b.size = 0 ∧ st_recording_empty.b.offset = 0 ∧
    [cy_256, cy_256, cy_256].length * 256 * 2 = 1536 ∧
    ∃ t, run 2 258 [cy_256, cy_256, cy_256] st_recording_empty = some t ∧
      t.b.size = [cy_256, cy_256, cy_256].length * 256 * 2 ∧ t.b.offset = t.b.size :=
  ⟨by decide, by decide, rfl, rfl, rfl, by decide,
    run_recording_size 2 258 256 [cy_256, cy_256, cy_256] st_recording_empty
      (by decide) (by decide)
      (by intro cy hcy; simp only [List.mem_cons, List.mem_singleton, List.not_mem_nil,
            or_false, or_self] at hcy; subst hcy; exact ⟨rfl, rfl⟩)
      rfl
      (by intro c hc; cases hc; exact ⟨by decide, by decide⟩)
      rfl rfl (by decide)⟩

/-! ## The cursor of the capture buffer -/

/-- The initial state has its cursor inside the buffer. -/
theorem cursor_in_buffer_init (srate : Nat) (click : Option Click) (lat : LatencyRange) :
    cursor_in_buffer (init_state srate click lat) :=
  Nat.le_refl 0

/-- The `change_mode(b, m)` call with `m != 0`, the replay command among them,
does not touch the buffer. -/
theorem change_mode_command_b (s : State) (m : Nat) (hm : m ≠ 0) :
    (change_mode s m).b = s.b := by
  simp only [change_mode, hm, ne_eq, not_false_eq_true, if_true]

/-- The toggle from any mode other than Playing keeps the cursor inside the
buffer. -/
theorem change_mode_toggle_cursor (s : State) (h : cursor_in_buffer s)
    (hmode : s.mode ≠ MODE_LISTEN) : cursor_in_buffer (change_mode s 0) := by
  unfold cursor_in_buffer at *
  unfold change_mode
  simp only [ne_eq, not_true_eq_false, if_false, hmode]
  split_ifs
  · exact Nat.zero_le _
  · exact Nat.le_refl 0
  · exact h

/-- The toggle from Playing keeps the cursor inside the buffer exactly when
the latency midpoint is at most the buffer size. -/
theorem change_mode_toggle_playing_cursor (s : State) (hmode : s.mode = MODE_LISTEN) :
    cursor_in_buffer (change_mode s 0) ↔
      add32 s.input_latency_range.min s.input_latency_range.max / 2 ≤ s.b.size := by
  unfold cursor_in_buffer change_mode
  simp [hmode, MODE_LISTEN, MODE_RECORD]

/-- The recording/playing part of `process` keeps the cursor inside the
buffer, unless the block exhausts the buffer while Playing; when Recording
the grown size is supposed to fit `size_t`. -/
theorem process_buffer_cursor (sw : Nat) (cy : Cycle) (m : Metro)
    (h : cursor_in_buffer m.s) (hsize : m.s.b.size < U64)
    (hfit : m.s.mode = MODE_RECORD →
      m.s.b.size + mul64 sw (sub32 cy.nframes m.record_offset) < U64)
    (hleft : m.s.mode = MODE_LISTEN →
      mul64 sw (sub32 cy.nframes m.record_offset) ≤ sub64 m.s.b.size m.s.b.offset) :
    cursor_in_buffer (process_buffer sw cy m).s := by
  unfold cursor_in_buffer at *
  unfold process_buffer
  dsimp only
  by_cases h1 : cy.buffer_free = false
  · rw [if_pos h1]
    exact h
  · rw [if_neg h1]
    by_cases h2 : m.s.mode = MODE_RECORD
    · rw [if_pos h2]
      have := hfit h2
      dsimp only
      unfold add64
      rw [Nat.mod_eq_of_lt (by omega), Nat.mod_eq_of_lt (by omega)]
      omega
    · rw [if_neg h2]
      by_cases h3 : m.s.mode = MODE_LISTEN
      · have hl := hleft h3
        rw [if_pos h3, if_neg (by omega)]
        dsimp only
        have hs : sub64 m.s.b.size m.s.b.offset = m.s.b.size - m.s.b.offset := by
          unfold sub64 U64 at *
          omega
        rw [hs] at hl
        unfold add64
        rw [Nat.mod_eq_of_lt (by omega)]
        omega
      · rw [if_neg h3]
        exact h

/-- The same for `process`: when the metronome part returns, the call
returns, and the cursor stays inside the buffer unless the block exhausts the
buffer while Playing. -/
theorem process_cursor (sw fuel : Nat) (cy : Cycle) (s : State) (m : Metro)
    (hm : process_metronome fuel cy s = some m)
    (h : cursor_in_buffer s) (hsize : s.b.size < U64)
    (hfit : m.s.mode = MODE_RECORD →
      s.b.size + mul64 sw (sub32 cy.nframes m.record_offset) < U64)
    (hleft : m.s.mode = MODE_LISTEN →
      mul64 sw (sub32 cy.nframes m.record_offset) ≤ sub64 s.b.size s.b.offset) :
    ∃ r, process sw fuel cy s = some r ∧ cursor_in_buffer r.s := by
  obtain ⟨hb, -, -⟩ := process_metronome_frame hm
  refine ⟨process_buffer sw cy m, by rw [process, hm]; rfl, ?_⟩
  apply process_buffer_cursor
  · unfold cursor_in_buffer at *
    rw [hb]
    exact h
  · rw [hb]
    exact hsize
  · rw [hb]
    exact hfit
  · rw [hb]
    exact hleft

/-! ## C11 -/

/-- C11 (the code at two failing inputs).  First: a session starts (empty
buffer, cursor 0, latency 256); the replay command arms playback; the next
block of 64 frames turns the mode to Playing, finds the buffer exhausted and
calls `change_mode(b, 0)`: the state is Paused with the cursor at 256 and the
size at 0.  A second replay then plays from beyond the buffer: the block is
not seen as exhausted, since `b->size - b->offset` wraps, and the cursor
moves to 512 with the size still 0.  Second: the toggle from Playing with a
recording of 100 bytes and a latency range of 100 to 300 frames sets the
cursor to 200. -/
theorem cursor_passes_end_after_playing :
    cursor_in_buffer st_init ∧
    cursor_in_buffer (change_mode st_init MODE_LIWAIT) ∧
    (process 4 2 cy_64 (change_mode st_init MODE_LIWAIT)).map
        (fun r => (r.s.mode, r.s.b.offset, r.s.b.size, decide (cursor_in_buffer r.s)))
      = some (MODE_PAUSED, 256, 0, false) ∧
    ((process 4 2 cy_64 (change_mode st_init MODE_LIWAIT)).bind
        (fun r => process 4 2 cy_64 (change_mode r.s MODE_LIWAIT))).map
        (fun r => (r.s.mode, r.s.b.offset, r.s.b.size))
      = some (MODE_LISTEN, 512, 0) ∧
    cursor_in_buffer st_playing_short ∧
    (change_mode st_playing_short 0).b.offset = 200 ∧
    (change_mode st_playing_short 0).b.size = 100 ∧
    ¬ cursor_in_buffer (change_mode st_playing_short 0) := by
  decide

/-! ## The turns of the metronome loop -/

/-- The loop is the repetition of `click_turn` while
`click->size - click_offset < remaining`. -/
theorem click_fill_succ (c : Click) (fuel : Nat) (f : Fill) :
    click_fill c (fuel + 1) f =
      if sub32 c.size f.s.click_offset < f.remaining then click_fill c fuel (click_turn c f)
      else some f := by
  rw [click_fill]
  rfl

/-- One turn lowers `remaining` by `(size - click_offset) mod 2^32`, raises
`written` by as much and puts the cursor at 0. -/
theorem click_turn_effect (c : Click) (f : Fill) (hr : f.remaining < U32)
    (hlt : sub32 c.size f.s.click_offset < f.remaining) :
    (click_turn c f).remaining + sub32 c.size f.s.click_offset = f.remaining ∧
    (click_turn c f).written = add32 f.written (sub32 c.size f.s.click_offset) ∧
    (click_turn c f).s.click_offset = 0 := by
  have hn : sub32 c.size (metronome_synchronize f.written f.s f.record_offset).1.click_offset
      = sub32 c.size f.s.click_offset := by
    rw [sync_click_offset]
  refine ⟨?_, ?_, rfl⟩
  · show sub32 f.remaining
        (sub32 c.size (metronome_synchronize f.written f.s f.record_offset).1.click_offset)
        + sub32 c.size f.s.click_offset = f.remaining
    rw [hn, sub32_of_le (le_of_lt hlt) hr]
    omega
  · show add32 f.written
        (sub32 c.size (metronome_synchronize f.written f.s f.record_offset).1.click_offset)
        = add32 f.written (sub32 c.size f.s.click_offset)
    rw [hn]

/-- The amount of a turn is zero exactly when the cursor is at the end of the
click. -/
theorem sub32_eq_zero_iff (size off : Nat) (hc : size < U32) :
    sub32 size off = 0 ↔ off % U32 = size := by
  unfold sub32 U32 at *
  omega

/-! ## C12 -/

/-- C12 (as stated, refuted).  A click of 8 frames with the cursor at 8
(where a block of 8 frames from cursor 0 leaves it) and a block of 4 frames:
the loop condition holds, and the turn leaves `remaining` at 4. -/
theorem click_turn_without_decrease :
    (0 < click_8.size) ∧
    (process 4 10 cy_8 st_paused_click_8).map (fun r => r.s.click_offset)
      = some st_cursor_at_end.click_offset ∧
    sub32 click_8.size st_cursor_at_end.click_offset
      < (fill_init cy_4 st_cursor_at_end).remaining ∧
    (fill_init cy_4 st_cursor_at_end).remaining = 4 ∧
    (click_turn click_8 (fill_init cy_4 st_cursor_at_end)).remaining = 4 ∧
    ¬ ((click_turn click_8 (fill_init cy_4 st_cursor_at_end)).remaining + 1
        ≤ (fill_init cy_4 st_cursor_at_end).remaining) := by
  decide

/-- C12 (amended).  With a click of size `0 < size < 2^32` installed, the
click lock obtained, any value of `click_offset` and a block of `N < 2^32`
frames, the loop of the metronome fill ends within `N + 1` turns (fuel
`N + 2`), `process` returns, and at the loop exit `written + remaining = N`
with `remaining <= (size - click_offset) mod 2^32`, so that the completing
copy of `remaining` samples accounts for the rest of the block.  Every turn
puts the cursor at 0 and lowers `remaining` by `(size - click_offset) mod
2^32`; this is at least 1 unless the turn starts with the cursor at `size`,
which after a first turn cannot happen again. -/
theorem metronome_fill_terminates (sw fuel : Nat) (cy : Cycle) (s : State) (c : Click)
    (hclick : s.click = some c) (hfree : cy.click_free = true)
    (hc0 : 0 < c.size) (hc : c.size < 4294967296) (hN : cy.nframes < 4294967296)
    (hfuel : cy.nframes + 2 ≤ fuel) :
    (∃ g, click_fill c fuel (fill_init cy s) = some g ∧
      g.written + g.remaining = cy.nframes ∧
      ¬ (sub32 c.size g.s.click_offset < g.remaining)) ∧
    (∃ r, process sw fuel cy s = some r) ∧
    (∀ f : Fill, f.remaining < 4294967296 →
      sub32 c.size f.s.click_offset < f.remaining →
        (click_turn c f).remaining + sub32 c.size f.s.click_offset = f.remaining ∧
        (click_turn c f).written = (f.written + sub32 c.size f.s.click_offset) % 4294967296 ∧
        (click_turn c f).s.click_offset = 0 ∧
        (click_turn c f).s.click_offset % 4294967296 ≠ c.size ∧
        (f.s.click_offset % 4294967296 ≠ c.size →
          (click_turn c f).remaining + 1 ≤ f.remaining)) := by
  obtain ⟨g, hg, hm⟩ := process_metronome_click hclick hfree hc0 hc hN hfuel
  obtain ⟨-, -, -, -, hexit, hsum⟩ := click_fill_inv c _ _ _ hg
  dsimp only at hsum
  refine ⟨⟨g, hg, ?_, hexit⟩, ⟨_, by rw [process, hm]; rfl⟩, ?_⟩
  · rw [hsum (by unfold U32; omega)]
    omega
  · intro f hr hlt
    obtain ⟨h1, h2, h3⟩ := click_turn_effect c f hr hlt
    refine ⟨h1, h2, h3, ?_, ?_⟩
    · rw [h3]
      simp only [Nat.zero_mod]
      omega
    · intro hne
      have hpos : sub32 c.size f.s.click_offset ≠ 0 := by
        intro h0
        exact hne ((sub32_eq_zero_iff c.size f.s.click_offset hc).1 h0)
      omega

theorem metronome_fill_terminates_witness :
    st_cursor_at_end.click = some click_8 ∧ cy_4.click_free = true ∧
    (0 < click_8.size) ∧ (click_8.size < 4294967296) ∧ (cy_4.nframes < 4294967296) ∧
    (cy_4.nframes + 2 ≤ 6) ∧
    ((∃ g, click_fill click_8 6 (fill_init cy_4 st_cursor_at_end) = some g ∧
      g.written + g.remaining = cy_4.nframes ∧
      ¬ (sub32 click_8.size g.s.click_offset < g.remaining)) ∧
    (∃ r, process 4 6 cy_4 st_cursor_at_end = some r) ∧
    (∀ f : Fill, f.remaining < 4294967296 →
      sub32 click_8.size f.s.click_offset < f.remaining →
        (click_turn click_8 f).remaining + sub32 click_8.size f.s.click_offset
          = f.remaining ∧
        (click_turn click_8 f).written
          = (f.written + sub32 click_8.size f.s.click_offset) % 4294967296 ∧
        (click_turn click_8 f).s.click_offset = 0 ∧
        (click_turn click_8 f).s.click_offset % 4294967296 ≠ click_8.size ∧
        (f.s.click_offset % 4294967296 ≠ click_8.size →
          (click_turn click_8 f).remaining + 1 ≤ f.remaining))) :=
  ⟨rfl, rfl, by decide, by decide, by decide, by decide,
    metronome_fill_terminates 4 6 cy_4 st_cursor_at_end click_8 rfl rfl
      (by decide) (by decide) (by decide) (by decide)⟩

end Recjack
